import Mathlib

set_option maxRecDepth 40000

/-!
Verification development for the Unified Redaction Engine
(`airline_pii_redactor.py`).

Texts are modelled as `List Char` (Python strings indexed by code points);
the development covers the ASCII fragment exercised by the recognizers
(character classes `[A-Za-z0-9]`, `\s`, `\d` are modelled on their ASCII
parts -- all pattern literals, blacklists and keywords in the source are
ASCII).  Confidence scores, which in the source are float literals that are
exact multiples of 0.01, are modelled as natural numbers scaled by 100
(0.85 becomes 85); this is order-preserving, so every score comparison in
the source is preserved.  External collaborators (the statistical analyzer,
the regex engine used for the phone patterns, the HanLP detector, the
Presidio anonymizer and the lenient `dateutil` parser) are modelled as
oracle parameters; Python exceptions of fallible collaborators are modelled
with `Option`/`Except`.
-/

/-! ## Character primitives (ASCII models of the Python character classes) -/

/-- ASCII model of the regex class `[A-Z]`. -/
def isUpperAZ (c : Char) : Bool := 'A' ≤ c && c ≤ 'Z'

/-- ASCII model of the regex class `[a-z]`. -/
def isLowerAZ (c : Char) : Bool := 'a' ≤ c && c ≤ 'z'

/-- ASCII model of the regex class `\d` / `str.isdigit`. -/
def isDigitA (c : Char) : Bool := '0' ≤ c && c ≤ '9'

/-- ASCII model of `str.isalpha` on a single character. -/
def isAlphaA (c : Char) : Bool := isUpperAZ c || isLowerAZ c

/-- ASCII model of the regex class `[A-Za-z0-9]`. -/
def isAlnumA (c : Char) : Bool := isUpperAZ c || isLowerAZ c || isDigitA c

/-- ASCII model of the regex class `\s` and of the character set stripped by
`str.strip()`. -/
def pyIsSpace (c : Char) : Bool :=
  c = ' ' || c = '\t' || c = '\n' || c = '\r' || c = '\x0b' || c = '\x0c'

/-- ASCII model of the regex class `\w` (used for the `\b` word boundary). -/
def isWordChar (c : Char) : Bool := isAlnumA c || c = '_'

/-- Model of `str.lower()` (ASCII case mapping, as in `Char.toLower`). -/
def pyLower (l : List Char) : List Char := l.map Char.toLower

/-- Model of `str.upper()` (ASCII case mapping). -/
def pyUpper (l : List Char) : List Char := l.map Char.toUpper

/-- Model of Python slicing `text[a:b]` for natural indices (Python clamps
out-of-range bounds, which `drop`/`take` also do). -/
def pySlice (l : List Char) (a b : Nat) : List Char := (l.drop a).take (b - a)

/-- Model of `str.isalpha()`: non-empty and every character alphabetic. -/
def pyIsAlphaStr (l : List Char) : Bool := !l.isEmpty && l.all isAlphaA

/-- Model of `str.isupper()`: at least one cased character and no lowercase
cased character (on the ASCII fragment, cased characters are letters). -/
def pyIsUpperStr (l : List Char) : Bool :=
  l.any isAlphaA && l.all (fun c => !isLowerAZ c)

/-- Model of `str.isdigit()`: non-empty and every character a digit. -/
def pyIsDigitStr (l : List Char) : Bool := !l.isEmpty && l.all isDigitA

/-- Drop trailing whitespace (the right half of `str.strip()`). -/
def dropTrailingWS : List Char → List Char
  | [] => []
  | c :: rest =>
    let r := dropTrailingWS rest
    if r.isEmpty && pyIsSpace c then [] else c :: r

/-- Model of `str.strip()`: drop leading and trailing whitespace. -/
def pyStrip (l : List Char) : List Char :=
  dropTrailingWS (l.dropWhile pyIsSpace)

/-- Substring test, modelling Python's `needle in hay` for strings. -/
def containsSub (hay needle : List Char) : Bool :=
  needle.isPrefixOf hay ||
    match hay with
    | [] => false
    | _ :: t => containsSub t needle

/-- Model of `str.split()` (split on whitespace runs, dropping empties);
the accumulator carries the current word reversed. -/
def pySplitGo (l : List Char) (acc : List Char) : List (List Char) :=
  match l with
  | [] => if acc.isEmpty then [] else [acc.reverse]
  | c :: rest =>
    if pyIsSpace c then
      if acc.isEmpty then pySplitGo rest [] else acc.reverse :: pySplitGo rest []
    else pySplitGo rest (c :: acc)

/-- Model of `str.split()`. -/
def pySplit (l : List Char) : List (List Char) := pySplitGo l []

/-- Membership of a character list in a list of string literals (models
`x in {...}` for the configuration word sets of the source). -/
def memS (set : List String) (w : List Char) : Bool :=
  set.any (fun s => s.toList == w)

/-! ## Output normalizer (`AirlinePIIRedactor._normalize_output`)

The source applies three substitutions in order:
`re.sub(r'([A-Za-z0-9])(\[)', r'\1 \2', text)`,
`re.sub(r'(\])([A-Za-z0-9])', r'\1 \2', text)`, and
`re.sub(r'\s+', ' ', text).strip()`. -/

/-- Pair rewritten by the first substitution: alphanumeric then `[`. -/
def badLB (a b : Char) : Bool := isAlnumA a && b == '['

/-- Pair rewritten by the second substitution: `]` then alphanumeric. -/
def badRB (a b : Char) : Bool := a == ']' && isAlnumA b

/-- Pair rewritten by the whitespace collapse: two adjacent whitespace. -/
def badWW (a b : Char) : Bool := pyIsSpace a && pyIsSpace b

/-- First substitution: insert a space between an alphanumeric character and
a following `[`.  Matches are non-overlapping and scanning resumes after the
bracket, as `re.sub` does. -/
def spaceBeforeLB : List Char → List Char
  | [] => []
  | [a] => [a]
  | a :: b :: rest =>
    if badLB a b then a :: ' ' :: b :: spaceBeforeLB rest
    else a :: spaceBeforeLB (b :: rest)

/-- Second substitution: insert a space between `]` and a following
alphanumeric character. -/
def spaceAfterRB : List Char → List Char
  | [] => []
  | [a] => [a]
  | a :: b :: rest =>
    if badRB a b then a :: ' ' :: b :: spaceAfterRB rest
    else a :: spaceAfterRB (b :: rest)

/-- Third substitution, `re.sub(r'\s+', ' ', text)`: replace every maximal
whitespace run with a single space.  The flag records whether we are inside
a run whose single space has already been emitted. -/
def collapseGo : Bool → List Char → List Char
  | _, [] => []
  | inRun, c :: rest =>
    if pyIsSpace c then
      if inRun then collapseGo true rest else ' ' :: collapseGo true rest
    else c :: collapseGo false rest

/-- The output normalizer `_normalize_output` of the source. -/
def normalizeOutput (l : List Char) : List Char :=
  pyStrip (collapseGo false (spaceAfterRB (spaceBeforeLB l)))

/-! ## Invariants of the normalizer's output

`adjOK bad l` states that no adjacent pair of characters of `l` is `bad`;
the three `bad` relations correspond to the three substitutions. -/

/-- The first character of `l` (if any) is not `bad` after `a`. -/
def headOK (bad : Char → Char → Bool) (a : Char) (l : List Char) : Bool :=
  match l.head? with
  | none => true
  | some b => !bad a b

/-- No adjacent pair of characters of `l` is `bad`. -/
def adjOK (bad : Char → Char → Bool) : List Char → Bool
  | a :: b :: rest => !bad a b && adjOK bad (b :: rest)
  | _ => true

/-- Every whitespace character is a plain space. -/
def wsOnlySpace (l : List Char) : Bool := l.all (fun c => !pyIsSpace c || c == ' ')

/-! ## Entity validators (`AirlinePIIRedactor`) -/

/-- The single-character Romanized surname set of `SurnameManager` (with
duplicates of the source literal preserved; membership is all that matters). -/
def single_surnames : List String := [
  "bai", "ban", "bao", "bei", "bi", "bian", "biao", "bie",
  "bin", "bing", "bo", "bu", "cai", "cao", "cen", "chai",
  "chan", "chang", "chao", "che", "chen", "cheng", "chi", "chong",
  "chou", "chu", "chuan", "chuang", "chun", "ci", "cong", "cui",
  "cun", "cuo", "da", "dai", "dan", "dang", "dao", "de",
  "deng", "di", "dian", "diao", "ding", "diu", "dong", "dou",
  "du", "duan", "dun", "duo", "e", "en", "er", "fa",
  "fan", "fang", "fei", "fen", "feng", "fo", "fou", "fu",
  "ga", "gai", "gan", "gang", "gao", "ge", "gei", "gen",
  "geng", "gong", "gou", "gu", "gua", "guai", "guan", "guang",
  "gui", "gun", "guo", "ha", "hai", "han", "hang", "hao",
  "he", "hei", "hen", "heng", "hong", "hou", "hu", "hua",
  "huai", "huan", "huang", "hui", "hun", "huo", "ji", "jia",
  "jian", "jiang", "jiao", "jie", "jin", "jing", "jiong", "jiu",
  "ju", "juan", "jue", "jun", "ka", "kai", "kan", "kang",
  "kao", "ke", "ken", "keng", "kong", "kou", "ku", "kua",
  "kuai", "kuan", "kuang", "kui", "kun", "kuo", "la", "lai",
  "lan", "lang", "lao", "le", "lei", "leng", "li", "lia",
  "lian", "liang", "liao", "lie", "lin", "ling", "liu", "long",
  "lou", "lu", "luan", "lun", "luo", "ma", "mai", "man",
  "mang", "mao", "me", "mei", "men", "meng", "mi", "mian",
  "miao", "mie", "min", "ming", "miu", "mo", "mou", "mu",
  "na", "nai", "nan", "nang", "nao", "ne", "nei", "nen",
  "neng", "ni", "nian", "niang", "niao", "nie", "nin", "ning",
  "niu", "nong", "nu", "nuan", "o", "ou", "pa", "pai",
  "pan", "pang", "pao", "pei", "pen", "peng", "pi", "pian",
  "piao", "pie", "pin", "ping", "po", "pou", "pu", "qi",
  "qia", "qian", "qiang", "qiao", "qie", "qin", "qing", "qiong",
  "qiu", "qu", "quan", "que", "qun", "ran", "rang", "rao",
  "re", "ren", "reng", "ri", "rong", "rou", "ru", "ruan",
  "rui", "run", "ruo", "sa", "sai", "san", "sang", "sao",
  "se", "sen", "seng", "sha", "shai", "shan", "shang", "shao",
  "she", "shen", "sheng", "shi", "shou", "shu", "shua", "shuai",
  "shuan", "shuang", "shui", "shun", "shuo", "si", "song", "sou",
  "su", "suan", "sui", "sun", "suo", "ta", "tai", "tan",
  "tang", "tao", "te", "teng", "ti", "tian", "tiao", "tie",
  "ting", "tong", "tou", "tu", "tuan", "tui", "tun", "tuo",
  "wa", "wai", "wan", "wang", "wei", "wen", "weng", "wo",
  "wu", "xi", "xia", "xian", "xiang", "xiao", "xie", "xin",
  "xing", "xiong", "xiu", "xu", "xuan", "xue", "xun", "ya",
  "yan", "yang", "yao", "ye", "yi", "yin", "ying", "yo",
  "yong", "you", "yu", "yuan", "yue", "yun", "za", "zai",
  "zan", "zang", "zao", "ze", "zei", "zen", "zeng", "zha",
  "zhai", "zhan", "zhang", "zhao", "zhe", "zhen", "zheng", "zhi",
  "zhong", "zhou", "zhu", "zhua", "zhuai", "zhuan", "zhuang", "zhui",
  "zhun", "zhuo", "zi", "zong", "zou", "zu", "zuan", "zui",
  "zun", "zuo", "lee", "ng", "yung", "yee", "yip", "teoh",
  "tay", "tham", "woon", "chan", "chiu", "chao", "wong", "hwang",
  "chou", "shyu", "hsu", "suen", "kwok", "ho", "lam", "lo",
  "cheng", "tsieh", "yuen", "tsang", "chong", "chung", "tsui", "shek",
  "shum", "cheung", "cheong", "chueng", "leung", "leong", "yeung", "chau",
  "lau", "kwan", "kwong", "yau"]

/-- The compound Romanized surname set of `SurnameManager`. -/
def compound_surnames : List String := [
  "ouyang", "shangguan", "sima", "zhuge", "ximen", "beigong", "gongsun", "chunyu",
  "dantai", "dongfang", "duanmu", "gongxi", "gongye", "guliang", "guanqiu", "haan",
  "huangfu", "jiagu", "jinyun", "lanxu", "liangqiu", "linghu", "lvqiu", "moyao",
  "nangong", "shusun", "situ", "taihu", "weisheng", "wuyan", "xiahou", "xianyu",
  "xiangsi", "xueqiu", "yanshi", "yuchi", "zhaoshe", "zhengxi", "zhongli", "zhongsun",
  "zhuanyu", "zhuansun", "zongzheng", "zuifu", "nalan", "auyeung", "szeto"]

/-- The common-word blacklist of `SurnameManager`. -/
def surname_blacklist : List String := [
  "change", "challenge", "chance", "channel", "charge", "chart", "chat", "cheap",
  "check", "cheese", "chemical", "chest", "chicken", "chief", "child", "china",
  "chinese", "chocolate", "choice", "choose", "christmas", "church", "cinema", "admin",
  "root", "user", "test", "guest", "default", "password", "username", "login",
  "logout", "system", "server", "client", "database", "email", "mail", "phone",
  "mobile", "contact", "info", "information", "address", "name", "id", "account",
  "profile", "setting", "config", "configuration", "api", "interface", "example", "gmail",
  "yahoo", "hotmail", "qq", "163", "126", "sina", "outlook", "icloud",
  "protonmail", "foxmail", "aliyun", "sohu", "yeah", "live", "msn", "this",
  "that", "with", "from", "they", "have", "were", "said", "time",
  "than", "them", "into", "just", "like", "over", "also", "back",
  "only", "know", "take", "year", "good", "some", "come", "make",
  "well", "very", "when", "much", "would", "there", "their", "what",
  "about", "which", "after", "first", "never", "these", "think", "where",
  "being", "every", "great", "might", "shall", "while", "those", "before",
  "should", "himself", "themselves", "both", "any", "each", "few", "more",
  "most", "other", "some", "such", "what", "which", "who", "whom",
  "whose", "why", "how", "all", "any", "both", "each", "few",
  "more", "most", "other", "some", "such", "no", "nor", "not",
  "only", "own", "same", "so", "than", "too", "very"]

/-- The PNR blacklist of `AirlinePIIRedactor` (`self.pnr_blacklist`). -/
def pnr_blacklist : List String := [
  "FLIGHT", "TICKET", "BOARD", "SEATS", "CABIN", "PILOT", "STAFF", "HOTEL",
  "EVENT", "FIRST", "CLASS", "TOTAL", "GROUP", "WORLD", "HELLO", "THANK",
  "DELAY", "CLAIM", "ROUTE", "ADULT", "CHILD", "PRICE", "TAXES", "CHECK",
  "VALID", "ISSUE", "EMAIL", "PHONE", "OFFER", "POINT", "MILES", "PARTY",
  "GUEST", "SORRY", "REPLY", "ADMIN", "AGENT", "HOURS", "DATES", "TIMES",
  "MONTH", "YEARS", "COACH", "INFANT", "BAGGAGE", "LUGGAGE", "CREW", "STATUS",
  "GATE", "ARRIVAL", "DEPART", "ROUND", "TRIP", "FARES", "CODES", "RULES",
  "TERMS", "APPLY", "ABOUT", "PRESS", "MEDIA", "LOGIN", "WHERE", "THERE",
  "WHICH", "OTHER", "THEIR", "BELOW", "ABOVE", "UNDER", "AFTER", "UNTIL",
  "SINCE", "WHILE", "NEVER", "AGAIN", "ENTRY", "EXIT", "AISLE", "MEALS",
  "SNACK", "DRINK", "WATER", "JUICE", "WINES", "BEERS", "SALES", "DEALS",
  "CARGO", "FLEET", "UNION", "TRUST", "VALUE", "SCORE", "LEVEL", "TIERS",
  "BASIC", "SMART", "SUPER", "HAPPY", "ENJOY", "VISIT", "WATCH", "VIDEO",
  "AUDIO", "MUSIC", "MOVIE", "POWER", "LIGHT", "NIGHT", "DAILY", "WEEK",
  "TODAY", "LATER", "EARLY", "QUICK", "SPEED", "SPACE", "PLACE", "TOUCH",
  "SCREEN", "PANEL", "LEVER", "PEDAL", "WHEEL", "TIRES", "BRAKE", "GEARS",
  "WING", "TAIL", "NOSE", "BODY", "PAINT", "COLOR", "WHITE", "BLACK",
  "GREEN", "STYLE", "MODEL", "BUILD", "MAKER", "OWNER", "BUYER", "LEASE",
  "RENT", "HIRE", "COSTS", "SPEND", "MONEY", "CASH", "CARD", "DEBIT",
  "BANKS", "LOANS", "RATES", "TAXIS", "TRAIN", "BUSES", "METRO", "FERRY",
  "SHIPS", "BOAT", "CYCLE", "DRIVE", "RIDER", "WALKS", "STEPS", "MILE",
  "METER", "KILO", "GRAMS", "POUND", "OUNCE", "LITER", "GALLON", "REFUND",
  "CANCEL", "UPDATE", "NOTICE", "ALERT", "SAFETY", "OXYGEN", "JACKET", "WINDOW",
  "MIDDLE", "CENTER", "GALLEY", "TOILET", "LOUNGE", "ACCESS", "MEMBER", "SILVER",
  "GOLD", "ELITE", "POINTS", "WALLET", "PAYMENT", "AMOUNT", "NUMBER", "COUNT",
  "COST", "RATE", "FARE", "CHARGES", "DUTY", "GOODS", "ITEMS", "BAGS",
  "PLANE", "AIRBUS", "BOEING", "HELPDESK", "SUPPORT", "OFFICE", "CENTER", "MOBILE",
  "APP", "WEB", "SITE", "LINK", "CLICK", "CHOOSE", "OPTION", "ACTION",
  "RESULT", "ERROR", "FAULT", "CASE", "FILE", "RECORD", "DATA", "INFO",
  "QUERY", "ASK", "HELP", "FAQ", "HOME", "MAIN", "MENU", "BACK",
  "NEXT", "PREV", "LAST", "DONE", "FINISH", "START", "END", "STOP",
  "OPEN", "CLOSE", "LOCK", "UNLOCK"]

/-- The PNR context keywords of `AirlinePIIRedactor`
(`self.pnr_context_keywords`). -/
def pnr_context_keywords : List String := [
  "pnr", "record locator", "booking", "reservation", "confirm",
  "confirmation", "itinerary", "ticket", "locator", "ref",
  "reference"]

/-- `AirlinePIIRedactor.is_valid_pnr`: blacklist, case-shape, digit and
context-window checks, in the order of the source. -/
def is_valid_pnr (text entity_text : List Char) (start stop : Nat) : Bool :=
  if memS pnr_blacklist (pyUpper entity_text) then false
  else if pyIsAlphaStr entity_text && !pyIsUpperStr entity_text then false
  else if entity_text.any isDigitA then true
  else
    let left := start - 30
    let right := min text.length (stop + 30)
    let snippet := pyLower (pySlice text left right)
    pnr_context_keywords.any (fun k => containsSub snippet k.toList)

/-- `AirlinePIIRedactor.is_valid_flight_number` (the `parts`-prefix branch
of the source is a no-op `pass` and is omitted). -/
def is_valid_flight_number (t : List Char) : Bool :=
  if (pySplit t).isEmpty then false
  else !(t.any isLowerAZ)

/-- `AirlinePIIRedactor.is_valid_frequent_flyer`. -/
def is_valid_frequent_flyer (t : List Char) : Bool :=
  if t.any isLowerAZ then false
  else if pyIsDigitStr t then false
  else true

/-! ## Date-of-birth classification (`AirlinePIIRedactor.is_likely_dob`) -/

/-- Gregorian leap year, as `datetime` defines it. -/
def isLeapYear (y : Nat) : Bool := y % 4 = 0 && (y % 100 ≠ 0 || y % 400 = 0)

/-- Days in a month, as validated by the `datetime` constructor. -/
def daysInMonth (y m : Nat) : Nat :=
  if m = 2 then (if isLeapYear y then 29 else 28)
  else if m = 4 || m = 6 || m = 9 || m = 11 then 30
  else 31

/-- Validity of a calendar date as `datetime.strptime` checks it (the year
must be at least 1; four-digit years are at most 9999 by construction). -/
def validDate (y m d : Nat) : Bool :=
  1 ≤ y && 1 ≤ m && m ≤ 12 && 1 ≤ d && d ≤ daysInMonth y m

/-- Numeric value of an ASCII digit. -/
def digitVal (c : Char) : Nat := c.toNat - 48

/-- Two-digit field of a `strptime` format. -/
def twoDig (a b : Char) : Nat := 10 * digitVal a + digitVal b

/-- Four-digit field of a `strptime` format. -/
def fourDig (a b c d : Char) : Nat :=
  1000 * digitVal a + 100 * digitVal b + 10 * digitVal c + digitVal d

/-- `datetime.strptime(s, "%m%d%Y")` on an 8-digit string: the field
regexes of `%m`, `%d` and `%Y` force the 2+2+4 split on eight digits, so
the parse succeeds exactly when the fields form a valid calendar date.
Only the year is used by the caller. -/
def parseMDY : List Char → Option Nat
  | [a, b, c, d, e, f, g, h] =>
    if validDate (fourDig e f g h) (twoDig a b) (twoDig c d) then
      some (fourDig e f g h)
    else none
  | _ => none

/-- `datetime.strptime(s, "%d%m%Y")` on an 8-digit string. -/
def parseDMY : List Char → Option Nat
  | [a, b, c, d, e, f, g, h] =>
    if validDate (fourDig e f g h) (twoDig c d) (twoDig a b) then
      some (fourDig e f g h)
    else none
  | _ => none

/-- `datetime.strptime(s, "%Y%m%d")` on an 8-digit string. -/
def parseYMD : List Char → Option Nat
  | [a, b, c, d, e, f, g, h] =>
    if validDate (fourDig a b c d) (twoDig e f) (twoDig g h) then
      some (fourDig a b c d)
    else none
  | _ => none

/-- The nested `try/except` chain of `is_likely_dob` for compact 8-digit
dates: `%m%d%Y`, then `%d%m%Y`, then `%Y%m%d`. -/
def strict8Year (s : List Char) : Option Nat :=
  match parseMDY s with
  | some y => some y
  | none =>
    match parseDMY s with
    | some y => some y
    | none => parseYMD s

/-- The year obtained by the parsing phase of `is_likely_dob`: strict
8-digit parsing when `re.fullmatch(r'\d\x7b8\x7d', date_text)` succeeds,
otherwise the lenient `dateutil` parse (an oracle whose `none` models a
raised exception) of the whitespace-normalized text
`re.sub(r'\s+', ' ', date_text).strip()`. -/
def parsedYear (lenient : List Char → Option Int) (s : List Char) :
    Option Int :=
  if s.length = 8 && s.all isDigitA then (strict8Year s).map Int.ofNat
  else lenient (pyStrip (collapseGo false s))

/-- `AirlinePIIRedactor.is_likely_dob`.  `lenient` is the `dateutil`
oracle, `now` the value of `datetime.now().year`; the bare `except`
of the source corresponds to the `none` branch. -/
def is_likely_dob (lenient : List Char → Option Int) (now : Int)
    (date_text : List Char) : Bool :=
  match parsedYear lenient date_text with
  | none => false
  | some y =>
    if y > now then false
    else if now - y ≤ 2 then false
    else if 1900 < y && y ≤ now - 2 then true
    else false

/-- Specification-side date-of-birth classifier, written from the words of
the amended claim: on an 8-digit string try month-day-year, day-month-year
and year-month-day in that fixed order, taking the first valid calendar
date; otherwise parse leniently.  A parsed date is a DOB exactly when its
year is above 1900 and more than 2 years before the current year. -/
def dobSpec (lenient : List Char → Option Int) (now : Int)
    (s : List Char) : Bool :=
  match (if s.length = 8 && s.all isDigitA then
      ([parseMDY s, parseDMY s, parseYMD s].findSome? id).map Int.ofNat
    else lenient (pyStrip (collapseGo false s))) with
  | some y => decide (1900 < y ∧ 2 < now - y)
  | none => false

/-! ## Romanized-name recognizer (`SurnameManager`) -/

/-- `SurnameManager.is_surname`. -/
def is_surname (word : List Char) : Bool :=
  let w := pyLower word
  if memS surname_blacklist w then false
  else memS single_surnames w || memS compound_surnames w

/-- Longest run of characters satisfying `p` at the head (run, remainder);
models a greedy character-class `+`. -/
def takeRun (p : Char → Bool) : List Char → List Char × List Char
  | [] => ([], [])
  | c :: rest =>
    if p c then
      let (r, t) := takeRun p rest
      (c :: r, t)
    else ([], c :: rest)

/-- Word boundary after a word character: the next character, if any, must
not be a word character. -/
def boundaryOK : List Char → Bool
  | [] => true
  | d :: _ => !isWordChar d

/-- Match of `([A-Z][a-z]+)\s+([A-Z][a-z]+)\b` at the head of the list
(the leading `\b` is checked by the scanner).  Greedy matching needs no
backtracking here: the character classes of adjacent pattern pieces are
disjoint, and shrinking the final run can never restore the trailing word
boundary.  Returns the two groups and the total match length. -/
def matchNamePair (l : List Char) : Option (List Char × List Char × Nat) :=
  match l with
  | [] => none
  | c0 :: rest =>
    if isUpperAZ c0 then
      let p1 := takeRun isLowerAZ rest
      if p1.1.isEmpty then none
      else
        let p2 := takeRun pyIsSpace p1.2
        if p2.1.isEmpty then none
        else
          match p2.2 with
          | [] => none
          | c2 :: rest3 =>
            if isUpperAZ c2 then
              let p3 := takeRun isLowerAZ rest3
              if p3.1.isEmpty then none
              else if boundaryOK p3.2 then
                some (c0 :: p1.1, c2 :: p3.1,
                  1 + p1.1.length + p2.1.length + 1 + p3.1.length)
              else none
            else none
    else none

/-- Scanner for `re.finditer` over the name-pair pattern: leftmost,
non-overlapping matches.  `prevWord` records whether the preceding
character is a word character (deciding the leading `\b`), `pos` is the
current offset, and the fuel bounds the number of steps (one step per
scan position). -/
def scanPairsGo : Nat → Bool → Nat → List Char →
    List (Nat × Nat × List Char × List Char)
  | 0, _, _, _ => []
  | _ + 1, _, _, [] => []
  | fuel + 1, prevWord, pos, c :: rest =>
    if prevWord then
      scanPairsGo fuel (isWordChar c) (pos + 1) rest
    else
      match matchNamePair (c :: rest) with
      | some (w1, w2, len) =>
        (pos, pos + len, w1, w2) ::
          scanPairsGo fuel true (pos + len) ((c :: rest).drop len)
      | none => scanPairsGo fuel (isWordChar c) (pos + 1) rest

/-- All matches of `\b([A-Z][a-z]+)\s+([A-Z][a-z]+)\b` in `text`. -/
def findNamePairs (text : List Char) :
    List (Nat × Nat × List Char × List Char) :=
  scanPairsGo (text.length + 1) false 0 text

/-- A candidate dictionary returned by `SurnameManager.detect_names`. -/
structure SurnameHit where
  text : List Char
  start : Nat
  stop : Nat
  type : String
  score : Nat
deriving DecidableEq

/-- `SurnameManager.detect_names`: two passes over the matches of the same
pattern, the first scored 0.85 for pairs where either word is a surname,
the second scored 0.9 for pairs whose first word is a compound surname. -/
def detect_names (text : List Char) : List SurnameHit :=
  let ms := findNamePairs text
  (ms.filterMap fun m =>
    if is_surname m.2.2.1 || is_surname m.2.2.2 then
      some ⟨pySlice text m.1 m.2.1, m.1, m.2.1, "PERSON", 85⟩
    else none) ++
  (ms.filterMap fun m =>
    if memS compound_surnames (pyLower m.2.2.1) then
      some ⟨pySlice text m.1 m.2.1, m.1, m.2.1, "PERSON", 90⟩
    else none)

/-! ## Phone recognizer (`InternationalPhoneRecognizer`) -/

/-- Per-region phone specification (`PHONE_PATTERNS` row).  The regex
source string is carried verbatim; matching is delegated to the
regex-engine oracle. -/
structure PhoneConfig where
  pattern : String
  min_length : Nat
  max_length : Nat
  prefix_validator : Option (List Char → Bool)
  confidence : Nat

/-- The accepted mainland-China mobile prefixes. -/
def cnMobilePrefixSet : List String := [
  "130", "131", "132", "133", "134", "135", "136", "137", "138", "139",
  "145", "147", "149", "150", "151", "152", "153", "155", "156", "157",
  "158", "159", "165", "166", "170", "171", "173", "175", "176", "177",
  "178", "180", "181", "182", "183", "184", "185", "186", "187", "188",
  "189", "190", "191", "192", "193", "195", "196", "197", "198", "199"]

/-- `InternationalPhoneRecognizer.PHONE_PATTERNS`, in dictionary insertion
order. -/
def PHONE_PATTERNS : List (String × PhoneConfig) := [
  ("CN", ⟨"(?<![0-9])1[3-9][0-9]\x7b9\x7d(?![0-9])", 11, 11,
    some (fun x => memS cnMobilePrefixSet (x.take 3)), 95⟩),
  ("HK", ⟨"(?<![0-9])(?:\\+?852[-\\s]?)?[569][0-9]\x7b3\x7d[-\\s]?[0-9]\x7b4\x7d(?![0-9])",
    8, 12, none, 90⟩),
  ("TW", ⟨"(?<![0-9])(?:\\+?886[-\\s]?)?0?9[0-9]\x7b2\x7d[-\\s]?[0-9]\x7b3\x7d[-\\s]?[0-9]\x7b3\x7d(?![0-9])",
    9, 15, none, 90⟩),
  ("US_CA", ⟨"(?<![0-9])(?:\\+?1[-\\s]?)?\\(?[2-9][0-9]\x7b2\x7d\\)?[-\\s]?[2-9][0-9]\x7b2\x7d[-\\s]?[0-9]\x7b4\x7d(?![0-9])",
    10, 16, none, 85⟩),
  ("UK", ⟨"(?<![0-9])(?:\\+?44[-\\s]?)?0?7[0-9]\x7b3\x7d[-\\s]?[0-9]\x7b6\x7d(?![0-9])",
    10, 15, none, 85⟩),
  ("SG", ⟨"(?<![0-9])(?:\\+?65[-\\s]?)?[689][0-9]\x7b3\x7d[-\\s]?[0-9]\x7b4\x7d(?![0-9])",
    8, 12, none, 85⟩),
  ("MY", ⟨"(?<![0-9])(?:\\+?60[-\\s]?)?1[0-9]\x7b1\x7d[-\\s]?[0-9]\x7b3,4\x7d[-\\s]?[0-9]\x7b4\x7d(?![0-9])",
    9, 12, none, 85⟩),
  ("AU", ⟨"(?<![0-9])(?:\\+?61[-\\s]?)?0?4[0-9]\x7b2\x7d[-\\s]?[0-9]\x7b3\x7d[-\\s]?[0-9]\x7b3\x7d(?![0-9])",
    9, 12, none, 85⟩),
  ("NZ", ⟨"(?<![0-9])(?:\\+?64[-\\s]?)?0?2[0-9]\x7b1\x7d[-\\s]?[0-9]\x7b3\x7d[-\\s]?[0-9]\x7b4\x7d(?![0-9])",
    9, 12, none, 85⟩),
  ("JP", ⟨"(?<![0-9])(?:\\+?81[-\\s]?)?0?(?:70|80|90)[-\\s]?[0-9]\x7b4\x7d[-\\s]?[0-9]\x7b4\x7d(?![0-9])",
    10, 13, none, 85⟩),
  ("KR", ⟨"(?<![0-9])(?:\\+?82[-\\s]?)?0?1[0-9][-\\s]?[0-9]\x7b3,4\x7d[-\\s]?[0-9]\x7b4\x7d(?![0-9])",
    10, 13, none, 85⟩),
  ("IN", ⟨"(?<![0-9])(?:\\+?91[-\\s]?)?[6-9][0-9]\x7b4\x7d[-\\s]?[0-9]\x7b5\x7d(?![0-9])",
    10, 12, none, 85⟩)]

/-- A candidate dictionary returned by
`InternationalPhoneRecognizer.analyze`. -/
structure PhoneHit where
  text : List Char
  start : Nat
  stop : Nat
  type : String
  score : Nat
  region : String
deriving DecidableEq

/-- Characters stripped by `re.sub(r'[\s\-\+\(\)]', '', raw_match)`. -/
def isSepChar (c : Char) : Bool :=
  pyIsSpace c || c = '-' || c = '+' || c = '(' || c = ')'

/-- `InternationalPhoneRecognizer.analyze`; `finditer pat text` is the
regex-engine oracle yielding the half-open spans of the matches of the
pattern whose source string is `pat`. -/
def phoneAnalyze (finditer : String → List Char → List (Nat × Nat))
    (text : List Char) : List PhoneHit :=
  PHONE_PATTERNS.flatMap (fun rc =>
    (finditer rc.2.pattern text).filterMap (fun se =>
      let raw := pySlice text se.1 se.2
      let clean := raw.filter (fun c => !isSepChar c)
      if rc.2.min_length ≤ clean.length && clean.length ≤ rc.2.max_length then
        if (match rc.2.prefix_validator with
            | some f => f clean
            | none => true) then
          some ⟨raw, se.1, se.2, "PHONE_NUMBER", rc.2.confidence, rc.1⟩
        else none
      else none))

/-! ## The redaction pipeline (`AirlinePIIRedactor.redact`) -/

/-- Maximal digit runs of the text, as half-open spans; the state carries
the start of the current run. -/
def digitRunsGo : List Char → Nat → Option Nat → List (Nat × Nat)
  | [], pos, cur =>
    match cur with
    | some s => [(s, pos)]
    | none => []
  | c :: rest, pos, cur =>
    match cur with
    | some s =>
      if isDigitA c then digitRunsGo rest (pos + 1) (some s)
      else (s, pos) :: digitRunsGo rest (pos + 1) none
    | none =>
      if isDigitA c then digitRunsGo rest (pos + 1) (some pos)
      else digitRunsGo rest (pos + 1) none

/-- Maximal digit runs of the text. -/
def digitRuns (text : List Char) : List (Nat × Nat) := digitRunsGo text 0 none

/-- The sticky-ticket scan `re.finditer(r'(?<!\d)\d\x7b13\x7d(?!\d)', text)`:
maximal digit runs of length exactly 13. -/
def stickyTicketSpans (text : List Char) : List (Nat × Nat) :=
  (digitRuns text).filter (fun se => se.2 - se.1 = 13)

/-- Presidio's `RecognizerResult`, as constructed by `redact`. -/
structure RecognizerResult where
  entity_type : String
  start : Nat
  stop : Nat
  score : Nat
deriving DecidableEq

/-- The common-word list used to suppress single-token Person candidates
in step 7 of `redact`. -/
def person_common_words : List String :=
  ["may", "will", "can", "long", "young", "man", "king", "mark", "rose",
   "read", "book"]

/-- The context keywords required near a Frequent Flyer candidate. -/
def ff_context_keywords : List String :=
  ["flyer", "miles", "points", "member", "club", "program", "card"]

/-- Keep-decision of the filtering loop (step 7) of `redact` for one
combined candidate. -/
def keepCandidate (lenient : List Char → Option Int) (now : Int)
    (text : List Char) (res : RecognizerResult) : Bool :=
  let entity_text := pyStrip (pySlice text res.start res.stop)
  if res.entity_type = "DATE_TIME" then is_likely_dob lenient now entity_text
  else if res.entity_type = "PNR" then
    is_valid_pnr text entity_text res.start res.stop
  else if res.entity_type = "Flight Number" then
    is_valid_flight_number entity_text
  else if res.entity_type = "Frequent Flyer" then
    is_valid_frequent_flyer entity_text &&
      (let left := res.start - 30
       let right := min text.length (res.stop + 30)
       let snippet := pyLower (pySlice text left right)
       ff_context_keywords.any (fun k => containsSub snippet k.toList))
  else if res.entity_type = "PERSON" then
    !(decide ((pySplit entity_text).length = 1) &&
      memS person_common_words (pyLower entity_text) && decide (res.score < 60))
  else true

/-- Step 7 of `redact`: the validated candidate list, in arrival order. -/
def filterCandidates (lenient : List Char → Option Int) (now : Int)
    (text : List Char) (rs : List RecognizerResult) : List RecognizerResult :=
  rs.filter (keepCandidate lenient now text)

/-- The external collaborators of `redact`, as oracles: `analyze` is the
Presidio `AnalyzerEngine` call (already thresholded at 0.4),
`phoneFinditer` the regex engine used by the phone recognizer,
`hanlpEntities` the person entities of the HanLP detector (text and span),
`chineseFinditer` the matches of the Chinese-surname pattern, `anonymize`
the Presidio `AnonymizerEngine` (`Except.error` models a raised
exception), `lenient` the `dateutil` parser and `now` the current year. -/
structure Externals where
  analyze : List Char → List RecognizerResult
  phoneFinditer : String → List Char → List (Nat × Nat)
  hanlpEntities : List Char → List (List Char × Nat × Nat)
  chineseFinditer : List Char → List (Nat × Nat)
  anonymize : List Char → List RecognizerResult → Except String (List Char)
  lenient : List Char → Option Int
  now : Int

/-- Steps 1-6 of `redact`: the combined candidate list (Presidio results,
phone results, HanLP entities without Latin letters and Chinese-pattern
matches at score 0.9, romanized-name hits, sticky 13-digit tickets at
score 0.9). -/
def combinedResults (ext : Externals) (text : List Char) :
    List RecognizerResult :=
  ext.analyze text
  ++ (phoneAnalyze ext.phoneFinditer text).map
      (fun p => ⟨"PHONE_NUMBER", p.start, p.stop, p.score⟩)
  ++ (((ext.hanlpEntities text).filter
        (fun e => !(e.1.any isAlphaA))).map (fun e => (e.2.1, e.2.2))
      ++ ext.chineseFinditer text).map
      (fun se => ⟨"PERSON", se.1, se.2, 90⟩)
  ++ (detect_names text).map (fun r => ⟨"PERSON", r.start, r.stop, r.score⟩)
  ++ (stickyTicketSpans text).map
      (fun se => ⟨"Ticket Number", se.1, se.2, 90⟩)

/-- The final span list that `redact` passes to the anonymizer. -/
def finalResults (ext : Externals) (text : List Char) :
    List RecognizerResult :=
  filterCandidates ext.lenient ext.now text (combinedResults ext text)

/-- `AirlinePIIRedactor.redact`: when the anonymization step raises, the
`try/except` of step 8 returns the original text unchanged; otherwise the
anonymized output is normalized.  The function is total: no branch
propagates an exception. -/
def redact (ext : Externals) (text : List Char) : List Char :=
  match ext.anonymize text (finalResults ext text) with
  | Except.ok out => normalizeOutput out
  | Except.error _ => text

/-! ## Claim-side ordering predicates -/

/-- Insertion into a start-sorted list. -/
def insertByStart (r : RecognizerResult) :
    List RecognizerResult → List RecognizerResult
  | [] => [r]
  | x :: xs =>
    if r.start ≤ x.start then r :: x :: xs else x :: insertByStart r xs

/-- Start-ordered insertion sort of a span list. -/
def sortByStart : List RecognizerResult → List RecognizerResult
  | [] => []
  | r :: rs => insertByStart r (sortByStart rs)

/-- Adjacent spans do not overlap. -/
def chainNonOverlap : List RecognizerResult → Bool
  | a :: b :: rest => (a.stop ≤ b.start) && chainNonOverlap (b :: rest)
  | _ => true

/-- The non-overlap property of the claims: sorted by start, every adjacent
pair satisfies `end[i] <= start[i+1]`. -/
def nonOverlapSorted (rs : List RecognizerResult) : Bool :=
  chainNonOverlap (sortByStart rs)

/-- A lenient-parser oracle that always fails. -/
def lenientNone : List Char → Option Int := fun _ => none

/-- Externals whose detectors return nothing, whose anonymizer succeeds
with empty output and whose lenient parser always fails. -/
def extEmpty : Externals :=
  ⟨fun _ => [], fun _ _ => [], fun _ => [], fun _ => [],
   fun _ _ => Except.ok [], lenientNone, 2026⟩

/-- As `extEmpty`, but the anonymizer raises. -/
def extFail : Externals :=
  ⟨fun _ => [], fun _ _ => [], fun _ => [], fun _ => [],
   fun _ _ => Except.error "anonymizer failure", lenientNone, 2026⟩

/-- A regex-engine oracle that reports one match, at offsets 0-11, for the
mainland-China phone pattern and none for any other pattern. -/
def cnFinditer : String → List Char → List (Nat × Nat) :=
  fun pat _ =>
    if pat = "(?<![0-9])1[3-9][0-9]\x7b9\x7d(?![0-9])" then [(0, 11)] else []

theorem adjOK_cons (bad : Char → Char → Bool) (a : Char) (l : List Char) :
    adjOK bad (a :: l) = (headOK bad a l && adjOK bad l) := by
  cases l <;> simp [adjOK, headOK]

theorem adjOK_parts {bad : Char → Char → Bool} {a : Char} {l : List Char}
    (h : adjOK bad (a :: l) = true) :
    headOK bad a l = true ∧ adjOK bad l = true := by
  rw [adjOK_cons] at h; exact And.intro (Bool.and_elim_left h) (Bool.and_elim_right h)

theorem headOK_of_forall {bad : Char → Char → Bool} {a : Char}
    (h : ∀ b, bad a b = false) (l : List Char) : headOK bad a l = true := by
  unfold headOK; cases l.head? <;> simp [h]

theorem headOK_congr {bad : Char → Char → Bool} {a : Char} {l l' : List Char}
    (h : l.head? = l'.head?) : headOK bad a l = headOK bad a l' := by
  unfold headOK; rw [h]

theorem spaceBeforeLB_head (l : List Char) :
    (spaceBeforeLB l).head? = l.head? := by
  induction l using spaceBeforeLB.induct <;> simp [spaceBeforeLB, *]

theorem spaceAfterRB_head (l : List Char) :
    (spaceAfterRB l).head? = l.head? := by
  induction l using spaceAfterRB.induct <;> simp [spaceAfterRB, *]

theorem spaceBeforeLB_id {l : List Char} (h : adjOK badLB l = true) :
    spaceBeforeLB l = l := by
  induction l using spaceBeforeLB.induct with
  | case1 => rfl
  | case2 a => rfl
  | case3 a b rest hb _ =>
    exfalso
    have := (adjOK_parts h).1
    simp [headOK, hb] at this
  | case4 a b rest hb ih =>
    simp only [spaceBeforeLB, if_neg hb]
    rw [ih (adjOK_parts h).2]

theorem spaceAfterRB_id {l : List Char} (h : adjOK badRB l = true) :
    spaceAfterRB l = l := by
  induction l using spaceAfterRB.induct with
  | case1 => rfl
  | case2 a => rfl
  | case3 a b rest hb _ =>
    exfalso
    have := (adjOK_parts h).1
    simp [headOK, hb] at this
  | case4 a b rest hb ih =>
    simp only [spaceAfterRB, if_neg hb]
    rw [ih (adjOK_parts h).2]

theorem adjOK_cons_of {bad : Char → Char → Bool} {a : Char} {l : List Char}
    (h1 : headOK bad a l = true) (h2 : adjOK bad l = true) :
    adjOK bad (a :: l) = true := by
  rw [adjOK_cons, h1, h2]; rfl

theorem spaceBeforeLB_post (l : List Char) :
    adjOK badLB (spaceBeforeLB l) = true := by
  induction l using spaceBeforeLB.induct with
  | case1 => rfl
  | case2 a => rfl
  | case3 a b rest hb ih =>
    have hbeq : b = '[' := by simpa using Bool.and_elim_right hb
    subst hbeq
    simp only [spaceBeforeLB, if_pos hb]
    have hA : badLB a ' ' = false := by
      simp only [badLB]
      have hf : (' ' == '[') = false := by decide
      rw [hf, Bool.and_false]
    have hB : badLB ' ' '[' = false := by decide
    have hC : ∀ x, badLB '[' x = false := fun x => by
      simp only [badLB]
      have hf : isAlnumA '[' = false := by decide
      rw [hf, Bool.false_and]
    rw [show adjOK badLB (a :: ' ' :: '[' :: spaceBeforeLB rest)
        = (!badLB a ' ' && (!badLB ' ' '[' && adjOK badLB ('[' :: spaceBeforeLB rest)))
        from rfl]
    rw [hA, hB]
    simp only [Bool.not_false, Bool.true_and]
    exact adjOK_cons_of (headOK_of_forall hC _) ih
  | case4 a b rest hb ih =>
    simp only [spaceBeforeLB, if_neg hb]
    apply adjOK_cons_of
    · rw [headOK_congr (spaceBeforeLB_head _)]
      simp [headOK, Bool.eq_false_iff.mpr hb]
    · exact ih

theorem spaceAfterRB_post (l : List Char) :
    adjOK badRB (spaceAfterRB l) = true := by
  induction l using spaceAfterRB.induct with
  | case1 => rfl
  | case2 a => rfl
  | case3 a b rest hb ih =>
    have hbeq : isAlnumA b = true := Bool.and_elim_right hb
    simp only [spaceAfterRB, if_pos hb]
    have hA : badRB a ' ' = false := by
      simp only [badRB]
      have hf : isAlnumA ' ' = false := by decide
      rw [hf, Bool.and_false]
    have hB : badRB ' ' b = false := by
      simp only [badRB]
      have hf : ((' ' == ']') = false) := by decide
      rw [hf, Bool.false_and]
    have hC : ∀ x, badRB b x = false := fun x => by
      simp only [badRB]
      have hne : (b == ']') = false := by
        refine beq_eq_false_iff_ne.mpr (fun hE => ?_)
        rw [hE] at hbeq
        exact absurd hbeq (by decide)
      rw [hne, Bool.false_and]
    rw [show adjOK badRB (a :: ' ' :: b :: spaceAfterRB rest)
        = (!badRB a ' ' && (!badRB ' ' b && adjOK badRB (b :: spaceAfterRB rest)))
        from rfl]
    rw [hA, hB]
    simp only [Bool.not_false, Bool.true_and]
    exact adjOK_cons_of (headOK_of_forall hC _) ih
  | case4 a b rest hb ih =>
    simp only [spaceAfterRB, if_neg hb]
    apply adjOK_cons_of
    · rw [headOK_congr (spaceAfterRB_head _)]
      simp [headOK, Bool.eq_false_iff.mpr hb]
    · exact ih

theorem spaceAfterRB_pres_lb {l : List Char} (h : adjOK badLB l = true) :
    adjOK badLB (spaceAfterRB l) = true := by
  induction l using spaceAfterRB.induct with
  | case1 => rfl
  | case2 a => rfl
  | case3 a b rest hb ih =>
    have haeq : a = ']' := by simpa using Bool.and_elim_left hb
    subst haeq
    simp only [spaceAfterRB, if_pos hb]
    have hA : badLB ']' ' ' = false := by decide
    have hB : ∀ x, badLB ' ' x = false := fun x => by
      simp only [badLB]
      have hf : isAlnumA ' ' = false := by decide
      rw [hf, Bool.false_and]
    have hbpair : headOK badLB b (spaceAfterRB rest) = true := by
      rw [headOK_congr (spaceAfterRB_head _)]
      have hparts := adjOK_parts h
      exact (adjOK_parts hparts.2).1
    have hadj : adjOK badLB (spaceAfterRB rest) = true := by
      have hparts := adjOK_parts h
      exact ih (adjOK_parts hparts.2).2
    rw [show adjOK badLB (']' :: ' ' :: b :: spaceAfterRB rest)
        = (!badLB ']' ' ' && (!badLB ' ' b && adjOK badLB (b :: spaceAfterRB rest)))
        from rfl]
    rw [hA, hB b]
    simp only [Bool.not_false, Bool.true_and]
    exact adjOK_cons_of hbpair hadj
  | case4 a b rest hb ih =>
    simp only [spaceAfterRB, if_neg hb]
    apply adjOK_cons_of
    · rw [headOK_congr (spaceAfterRB_head _)]
      exact (adjOK_parts h).1
    · exact ih (adjOK_parts h).2

/-- Head of the collapse of a list with the flag off. -/
theorem collapseGo_false_head (l : List Char) :
    (collapseGo false l).head? =
      l.head?.map (fun c => if pyIsSpace c then ' ' else c) := by
  cases l with
  | nil => rfl
  | cons c rest =>
    by_cases hc : pyIsSpace c = true
    · simp [collapseGo, hc]
    · simp [collapseGo, hc, Bool.eq_false_iff.mpr hc]

/-- The first character emitted while inside a run is never whitespace. -/
theorem collapseGo_true_head (l : List Char) :
    ∀ d, (collapseGo true l).head? = some d → pyIsSpace d = false := by
  induction l with
  | nil => intro d h; simp [collapseGo] at h
  | cons c rest ih =>
    intro d h
    by_cases hc : pyIsSpace c = true
    · simp only [collapseGo, hc, if_pos, if_true] at h
      exact ih d h
    · simp only [collapseGo, hc] at h
      simp only [if_neg, Bool.false_eq_true, if_false, List.head?_cons,
        Option.some.injEq] at h
      rw [← h]
      exact Bool.eq_false_iff.mpr hc

theorem collapseGo_true_eq_false {l : List Char}
    (h : ∀ d, l.head? = some d → pyIsSpace d = false) :
    collapseGo true l = collapseGo false l := by
  cases l with
  | nil => rfl
  | cons c rest =>
    have hc : pyIsSpace c = false := h c rfl
    simp [collapseGo, hc]

/-- Whitespace characters in the collapse output are plain spaces. -/
theorem collapseGo_wsOnly (b : Bool) (l : List Char) :
    wsOnlySpace (collapseGo b l) = true := by
  induction l generalizing b with
  | nil => cases b <;> rfl
  | cons c rest ih =>
    by_cases hc : pyIsSpace c = true
    · cases b with
      | true => simpa [collapseGo, hc] using ih true
      | false =>
        simp only [collapseGo, hc, if_pos, if_true]
        simpa [wsOnlySpace] using ih true
    · cases b <;>
      · simp only [collapseGo, hc, Bool.false_eq_true, if_false, if_neg]
        simpa [wsOnlySpace, hc] using ih false

/-- The collapse output has no two adjacent whitespace characters. -/
theorem collapseGo_adjWW (b : Bool) (l : List Char) :
    adjOK badWW (collapseGo b l) = true := by
  induction l generalizing b with
  | nil => cases b <;> rfl
  | cons c rest ih =>
    by_cases hc : pyIsSpace c = true
    · cases b with
      | true => simpa [collapseGo, hc] using ih true
      | false =>
        simp only [collapseGo, hc, if_pos, if_true]
        apply adjOK_cons_of
        · unfold headOK
          cases hh : (collapseGo true rest).head? with
          | none => rfl
          | some d =>
            have := collapseGo_true_head rest d hh
            simp [badWW, this]
        · exact ih true
    · cases b <;>
      · simp only [collapseGo, hc, Bool.false_eq_true, if_false, if_neg]
        apply adjOK_cons_of
        · exact headOK_of_forall
            (fun x => by simp [badWW, Bool.eq_false_iff.mpr hc]) _
        · exact ih false

/-- The collapse preserves any adjacency invariant for which a space on
either side of a pair is harmless. -/
theorem collapseGo_pres {bad : Char → Char → Bool}
    (hL : ∀ x, bad ' ' x = false) (hR : ∀ x, bad x ' ' = false)
    {l : List Char} (b : Bool) (h : adjOK bad l = true) :
    adjOK bad (collapseGo b l) = true := by
  induction l generalizing b with
  | nil => cases b <;> rfl
  | cons c rest ih =>
    have htail : adjOK bad rest = true := (adjOK_parts h).2
    have hhead : headOK bad c rest = true := (adjOK_parts h).1
    by_cases hc : pyIsSpace c = true
    · cases b with
      | true => simpa [collapseGo, hc] using ih true htail
      | false =>
        simp only [collapseGo, hc, if_pos, if_true]
        exact adjOK_cons_of (headOK_of_forall hL _) (ih true htail)
    · cases b <;>
      · simp only [collapseGo, hc, Bool.false_eq_true, if_false, if_neg]
        apply adjOK_cons_of
        · unfold headOK
          cases hh : (collapseGo false rest).head? with
          | none => rfl
          | some d =>
            rw [collapseGo_false_head rest] at hh
            cases hr : rest.head? with
            | none => rw [hr] at hh; simp at hh
            | some e =>
              rw [hr] at hh
              simp only [Option.map_some', Option.some.injEq] at hh
              by_cases he : pyIsSpace e = true
              · rw [if_pos he] at hh
                rw [← hh]
                show (!bad c ' ') = true
                rw [hR c]
                rfl
              · rw [if_neg he] at hh
                subst hh
                unfold headOK at hhead
                rw [hr] at hhead
                exact hhead
        · exact ih false htail

/-- The collapse is the identity on strings whose whitespace is single
plain spaces. -/
theorem collapseGo_id {l : List Char} (hws : wsOnlySpace l = true)
    (hadj : adjOK badWW l = true) : collapseGo false l = l := by
  induction l with
  | nil => rfl
  | cons c rest ih =>
    have hwsr : wsOnlySpace rest = true := by
      simp only [wsOnlySpace, List.all_cons, Bool.and_eq_true] at hws
      exact hws.2
    have hadjr : adjOK badWW rest = true := (adjOK_parts hadj).2
    by_cases hc : pyIsSpace c = true
    · have hcsp : c = ' ' := by
        simp only [wsOnlySpace, List.all_cons, Bool.and_eq_true] at hws
        have h1 := hws.1
        rw [hc] at h1
        simpa using h1
      simp only [collapseGo, hc, if_pos, if_true, Bool.false_eq_true, if_false]
      have hrest : ∀ d, rest.head? = some d → pyIsSpace d = false := by
        intro d hd
        have hho := (adjOK_parts hadj).1
        unfold headOK at hho
        rw [hd] at hho
        simp only [badWW, hc, Bool.true_and, Bool.not_eq_eq_eq_not,
          Bool.not_true] at hho
        exact hho
      rw [collapseGo_true_eq_false hrest, ih hwsr hadjr, hcsp]
    · simp only [collapseGo, hc, Bool.false_eq_true, if_false, if_neg]
      rw [ih hwsr hadjr]

theorem dropWhile_head_not {p : Char → Bool} {l : List Char} :
    ∀ d, (l.dropWhile p).head? = some d → p d = false := by
  induction l with
  | nil => intro d h; simp [List.dropWhile] at h
  | cons c rest ih =>
    intro d h
    by_cases hc : p c = true
    · rw [List.dropWhile_cons, if_pos hc] at h
      exact ih d h
    · rw [List.dropWhile_cons, if_neg hc] at h
      simp only [List.head?_cons, Option.some.injEq] at h
      rw [← h]
      exact Bool.eq_false_iff.mpr hc

theorem dropWhile_adjOK {bad : Char → Char → Bool} {p : Char → Bool}
    {l : List Char} (h : adjOK bad l = true) :
    adjOK bad (l.dropWhile p) = true := by
  induction l with
  | nil => exact h
  | cons c rest ih =>
    by_cases hc : p c = true
    · rw [List.dropWhile_cons, if_pos hc]
      exact ih (adjOK_parts h).2
    · rw [List.dropWhile_cons, if_neg hc]
      exact h

theorem dropWhile_all {p q : Char → Bool} {l : List Char}
    (h : l.all q = true) : (l.dropWhile p).all q = true := by
  induction l with
  | nil => exact h
  | cons c rest ih =>
    simp only [List.all_cons, Bool.and_eq_true] at h
    by_cases hc : p c = true
    · rw [List.dropWhile_cons, if_pos hc]
      exact ih h.2
    · rw [List.dropWhile_cons, if_neg hc]
      simp [h.1, h.2]

theorem dropWhile_id_of_head {p : Char → Bool} {l : List Char}
    (h : ∀ d, l.head? = some d → p d = false) : l.dropWhile p = l := by
  cases l with
  | nil => rfl
  | cons c rest =>
    rw [List.dropWhile_cons, if_neg]
    rw [h c rfl]
    simp

theorem dropTrailingWS_head (l : List Char) :
    (dropTrailingWS l).head? = none ∨ (dropTrailingWS l).head? = l.head? := by
  cases l with
  | nil => exact Or.inl rfl
  | cons c rest =>
    simp only [dropTrailingWS]
    by_cases hcond : ((dropTrailingWS rest).isEmpty && pyIsSpace c) = true
    · rw [if_pos hcond]; exact Or.inl rfl
    · rw [if_neg hcond]; exact Or.inr rfl

theorem dropTrailingWS_adjOK {bad : Char → Char → Bool} {l : List Char}
    (h : adjOK bad l = true) : adjOK bad (dropTrailingWS l) = true := by
  induction l with
  | nil => exact h
  | cons c rest ih =>
    simp only [dropTrailingWS]
    by_cases hcond : ((dropTrailingWS rest).isEmpty && pyIsSpace c) = true
    · rw [if_pos hcond]; rfl
    · rw [if_neg hcond]
      apply adjOK_cons_of
      · rcases dropTrailingWS_head rest with he | he
        · unfold headOK
          rw [he]
        · rw [headOK_congr he]
          exact (adjOK_parts h).1
      · exact ih (adjOK_parts h).2

theorem dropTrailingWS_all {q : Char → Bool} {l : List Char}
    (h : l.all q = true) : (dropTrailingWS l).all q = true := by
  induction l with
  | nil => exact h
  | cons c rest ih =>
    simp only [List.all_cons, Bool.and_eq_true] at h
    simp only [dropTrailingWS]
    by_cases hcond : ((dropTrailingWS rest).isEmpty && pyIsSpace c) = true
    · rw [if_pos hcond]; rfl
    · rw [if_neg hcond]
      simp [h.1, ih h.2]

theorem dropTrailingWS_last (l : List Char) :
    ∀ d, (dropTrailingWS l).getLast? = some d → pyIsSpace d = false := by
  induction l with
  | nil => intro d h; simp [dropTrailingWS] at h
  | cons c rest ih =>
    intro d h
    simp only [dropTrailingWS] at h
    by_cases hcond : ((dropTrailingWS rest).isEmpty && pyIsSpace c) = true
    · rw [if_pos hcond] at h
      simp at h
    · rw [if_neg hcond] at h
      cases he : dropTrailingWS rest with
      | nil =>
        rw [he] at h hcond
        simp only [List.getLast?_singleton, Option.some.injEq] at h
        simp only [List.isEmpty_nil, Bool.true_and] at hcond
        rw [← h]
        exact Bool.eq_false_iff.mpr hcond
      | cons x xs =>
        rw [he] at h
        rw [List.getLast?_cons_cons] at h
        exact ih d (he ▸ h)

theorem dropTrailingWS_id {l : List Char}
    (h : ∀ d, l.getLast? = some d → pyIsSpace d = false) :
    dropTrailingWS l = l := by
  induction l with
  | nil => rfl
  | cons c rest ih =>
    cases rest with
    | nil =>
      have hc : pyIsSpace c = false := h c rfl
      simp [dropTrailingWS, hc]
    | cons x xs =>
      have hrest : dropTrailingWS (x :: xs) = x :: xs := by
        apply ih
        intro d hd
        apply h
        rw [List.getLast?_cons_cons]
        exact hd
      have hdef : dropTrailingWS (c :: x :: xs) =
          (if (dropTrailingWS (x :: xs)).isEmpty && pyIsSpace c then []
           else c :: dropTrailingWS (x :: xs)) := rfl
      rw [hdef, hrest]
      simp

theorem pyStrip_adjOK {bad : Char → Char → Bool} {l : List Char}
    (h : adjOK bad l = true) : adjOK bad (pyStrip l) = true :=
  dropTrailingWS_adjOK (dropWhile_adjOK h)

theorem pyStrip_all {q : Char → Bool} {l : List Char}
    (h : l.all q = true) : (pyStrip l).all q = true :=
  dropTrailingWS_all (dropWhile_all h)

theorem pyStrip_head (l : List Char) :
    ∀ d, (pyStrip l).head? = some d → pyIsSpace d = false := by
  intro d h
  unfold pyStrip at h
  rcases dropTrailingWS_head (l.dropWhile pyIsSpace) with he | he
  · rw [he] at h; exact absurd h (by simp)
  · rw [he] at h
    exact dropWhile_head_not d h

theorem pyStrip_last (l : List Char) :
    ∀ d, (pyStrip l).getLast? = some d → pyIsSpace d = false :=
  fun d h => dropTrailingWS_last _ d h

theorem pyStrip_id {l : List Char}
    (hh : ∀ d, l.head? = some d → pyIsSpace d = false)
    (hl : ∀ d, l.getLast? = some d → pyIsSpace d = false) :
    pyStrip l = l := by
  unfold pyStrip
  rw [dropWhile_id_of_head hh, dropTrailingWS_id hl]

/-- The four invariants established by a full normalizer pass. -/
theorem normalizeOutput_invariants (l : List Char) :
    adjOK badLB (normalizeOutput l) = true ∧
    adjOK badRB (normalizeOutput l) = true ∧
    wsOnlySpace (normalizeOutput l) = true ∧
    adjOK badWW (normalizeOutput l) = true := by
  unfold normalizeOutput
  refine ⟨?_, ?_, ?_, ?_⟩
  · exact pyStrip_adjOK (collapseGo_pres
      (fun x => by
        simp only [badLB]
        have hf : isAlnumA ' ' = false := by decide
        rw [hf, Bool.false_and])
      (fun x => by
        simp only [badLB]
        have hf : (' ' == '[') = false := by decide
        rw [hf, Bool.and_false])
      false (spaceAfterRB_pres_lb (spaceBeforeLB_post l)))
  · exact pyStrip_adjOK (collapseGo_pres
      (fun x => by
        simp only [badRB]
        have hf : ((' ' == ']') = false) := by decide
        rw [hf, Bool.false_and])
      (fun x => by
        simp only [badRB]
        have hf : isAlnumA ' ' = false := by decide
        rw [hf, Bool.and_false])
      false (spaceAfterRB_post (spaceBeforeLB l)))
  · exact pyStrip_all (collapseGo_wsOnly false _)
  · exact pyStrip_adjOK (collapseGo_adjWW false _)

/-- A normalizer pass is the identity on any list satisfying the output
invariants and whose ends are not whitespace. -/
theorem normalizeOutput_fixed {n : List Char}
    (h1 : adjOK badLB n = true) (h2 : adjOK badRB n = true)
    (h3 : wsOnlySpace n = true) (h4 : adjOK badWW n = true)
    (hh : ∀ d, n.head? = some d → pyIsSpace d = false)
    (hl : ∀ d, n.getLast? = some d → pyIsSpace d = false) :
    normalizeOutput n = n := by
  unfold normalizeOutput
  rw [spaceBeforeLB_id h1, spaceAfterRB_id h2, collapseGo_id h3 h4,
    pyStrip_id hh hl]

/-! ## Substring and slice lemmas -/

/-- Unfolding equation for `containsSub` on a non-empty haystack. -/
theorem containsSub_cons (c : Char) (t n : List Char) :
    containsSub (c :: t) n = (n.isPrefixOf (c :: t) || containsSub t n) := rfl

/-- A contiguous substring is found by `containsSub` (the model of
Python's `in`). -/
theorem containsSub_of_infix {n h : List Char} (hinf : n <:+: h) :
    containsSub h n = true := by
  obtain ⟨pre, suf, rfl⟩ := hinf
  induction pre with
  | nil =>
    simp only [List.nil_append]
    have hp : n.isPrefixOf (n ++ suf) = true :=
      List.isPrefixOf_iff_prefix.mpr (List.prefix_append n suf)
    unfold containsSub
    rw [hp]
    simp
  | cons p pre' ih =>
    simp only [List.cons_append]
    rw [containsSub_cons, ih]
    simp

/-- A window of a slice: the inner slice is an infix of any enclosing
slice. -/
theorem pySlice_infix_pySlice {l : List Char} {left s e right : Nat}
    (h1 : left ≤ s) (h2 : s ≤ e) (h3 : e ≤ right) :
    pySlice l s e <:+: pySlice l left right := by
  unfold pySlice
  have hd : l.drop s = (l.drop left).drop (s - left) := by
    rw [List.drop_drop]
    congr 1
    omega
  rw [hd]
  set m := l.drop left with hm
  have hsplit : m.take (right - left)
      = m.take (s - left) ++ (m.drop (s - left)).take ((right - left) - (s - left)) := by
    have : right - left = (s - left) + ((right - left) - (s - left)) := by omega
    rw [this, List.take_add]
    congr 2
    omega
  have hts : (m.drop (s - left)).take (e - s)
      <+: (m.drop (s - left)).take ((right - left) - (s - left)) := by
    have : (e - s) ⊓ ((right - left) - (s - left)) = e - s := by
      apply Nat.min_eq_left
      omega
    calc (m.drop (s - left)).take (e - s)
        = ((m.drop (s - left)).take ((right - left) - (s - left))).take (e - s) := by
          rw [List.take_take, this]
      _ <+: (m.drop (s - left)).take ((right - left) - (s - left)) :=
          List.take_prefix _ _
  obtain ⟨t, ht⟩ := hts
  rw [hsplit, ← ht]
  have hfin := List.infix_append (m.take (s - left))
    ((m.drop (s - left)).take (e - s)) t
  rw [List.append_assoc] at hfin
  exact hfin

/-! ## Character-class disjointness -/

theorem isAlphaA_not_digit {c : Char} (h : isAlphaA c = true) :
    isDigitA c = false := by
  unfold isAlphaA isUpperAZ isLowerAZ at h
  unfold isDigitA
  simp only [Bool.or_eq_true, Bool.and_eq_true, decide_eq_true_eq] at h
  rcases h with ⟨hA, _⟩ | ⟨ha, _⟩
  · have h9 : ¬ (c ≤ '9') := fun h9 => by
      have hcon := le_trans hA h9
      revert hcon
      decide
    simp [h9]
  · have h9 : ¬ (c ≤ '9') := fun h9 => by
      have hcon := le_trans ha h9
      revert hcon
      decide
    simp [h9]

theorem all_alpha_no_digit {l : List Char} (h : l.all isAlphaA = true) :
    l.any isDigitA = false := by
  simp only [List.all_eq_true] at h
  rw [List.any_eq_false]
  intro c hc
  rw [isAlphaA_not_digit (h c hc)]
  simp

/-! ## Claim theorems -/

/-- C6: the output normalizer is idempotent: for every string `s`,
`normalize(normalize(s)) == normalize(s)`, where normalize inserts a
single space between an alphanumeric character and an adjacent bracket tag
on either side, collapses every whitespace run to a single space, and
trims leading and trailing whitespace. -/
theorem C6_normalize_idempotent (s : List Char) :
    normalizeOutput (normalizeOutput s) = normalizeOutput s := by
  obtain ⟨h1, h2, h3, h4⟩ := normalizeOutput_invariants s
  exact normalizeOutput_fixed h1 h2 h3 h4 (pyStrip_head _) (pyStrip_last _)

/-- C1 counterexample: for the input text `"Ouyang Ming"`, with all
external detectors silent, the final span list passed to the anonymizer
contains two identical `PERSON` spans over `[0, 11)`, so the sorted list
violates `end[i] <= start[i+1]`: the claimed non-overlap invariant fails.
The `is_overlap` helper defined inside `redact` is never called. -/
theorem C1_counterexample :
    nonOverlapSorted (finalResults extEmpty "Ouyang Ming".toList) = false := by
  decide

/-- C1 (amended): the filtering step of `redact` performs no overlap
resolution: its output is a subsequence of the combined candidate list in
arrival order, and the final list passed to the anonymizer can contain
overlapping (here identical) spans, as for `"Ouyang Ming"`; non-overlap is
delegated to the downstream Presidio anonymizer. -/
theorem C1_no_overlap_resolution :
    (∀ (lenient : List Char → Option Int) (now : Int) (text : List Char)
        (rs : List RecognizerResult),
        (filterCandidates lenient now text rs).Sublist rs) ∧
    finalResults extEmpty "Ouyang Ming".toList =
      [⟨"PERSON", 0, 11, 85⟩, ⟨"PERSON", 0, 11, 90⟩] :=
  ⟨fun _ _ _ rs => List.filter_sublist rs, by decide⟩

/-- C2: `redact` is a total function of its text (no branch propagates an
exception from the span-application step), and whenever the anonymization
step fails, `redact` returns exactly the original input text unchanged. -/
theorem C2_redact_fail_open (ext : Externals) (text : List Char) (e : String)
    (h : ext.anonymize text (finalResults ext text) = Except.error e) :
    redact ext text = text := by
  unfold redact
  rw [h]

/-- C2 witness: a concrete failing anonymizer yields the input unchanged. -/
theorem C2_redact_fail_open_witness :
    redact extFail "abc".toList = "abc".toList :=
  C2_redact_fail_open extFail "abc".toList "anonymizer failure" rfl

/-- C8: for the input `"Ouyang Ming"` (two consecutive capitalized words
whose first word, lowercased, is a compound surname not in the common-word
blacklist), `SurnameManager.detect_names` returns two `PERSON` candidates
with identical start and end offsets, one scored 0.85 and one scored 0.9:
the raw candidate list can contain duplicate, mutually overlapping spans
for the same range. -/
theorem C8_detect_names_duplicates :
    detect_names "Ouyang Ming".toList =
      [⟨"Ouyang Ming".toList, 0, 11, "PERSON", 85⟩,
       ⟨"Ouyang Ming".toList, 0, 11, "PERSON", 90⟩] := by
  decide

/-- C10: `is_likely_dob` is total (it is a function into `Bool`), and every
parse failure -- a lenient-parser exception, modelled by `none`, or the
failure of all three strict 8-digit parses -- yields `false`. -/
theorem C10_is_likely_dob_total (lenient : List Char → Option Int)
    (now : Int) (s : List Char) :
    (parsedYear lenient s = none → is_likely_dob lenient now s = false) ∧
    ((s.length = 8 && s.all isDigitA) = true → strict8Year s = none →
      is_likely_dob lenient now s = false) := by
  constructor
  · intro h
    unfold is_likely_dob
    rw [h]
  · intro h8 hs
    unfold is_likely_dob parsedYear
    rw [if_pos h8, hs]
    rfl

/-- C10 witness: unparseable text is classified `false`. -/
theorem C10_witness :
    is_likely_dob lenientNone 2026 "hello".toList = false :=
  (C10_is_likely_dob_total lenientNone 2026 "hello".toList).1 (by decide)

/-- The classification tail of `is_likely_dob` is equivalent to the single
window condition: year above 1900 and more than 2 years before `now`. -/
theorem dobClassifyEq (now y : Int) :
    (if y > now then false
     else if now - y ≤ 2 then false
     else if 1900 < y && y ≤ now - 2 then true
     else false) = decide (1900 < y ∧ 2 < now - y) := by
  split_ifs with h1 h2 h3
  · exact (decide_eq_false (by omega)).symm
  · exact (decide_eq_false (by omega)).symm
  · simp only [Bool.and_eq_true, decide_eq_true_eq] at h3
    exact (decide_eq_true (by omega)).symm
  · simp only [Bool.and_eq_true, decide_eq_true_eq, not_and, not_le] at h3
    exact (decide_eq_false (by omega)).symm

/-- C3 counterexample: with the current year 2026, the 8-digit candidate
`"01012024"` parses (month-day-year) to year 2024, which satisfies the
claim's window `1900 < y` and `now - y >= 2` -- yet `is_likely_dob`
classifies it as not-DOB, because the code excludes the boundary
`now - y = 2`. -/
theorem C3_counterexample :
    is_likely_dob lenientNone 2026 "01012024".toList = false ∧
    parsedYear lenientNone "01012024".toList = some 2024 ∧
    (1900 : Int) < 2024 ∧ (2 : Int) ≤ 2026 - 2024 :=
  ⟨by decide, by decide, by decide, by decide⟩

/-- C3 (amended): `is_likely_dob` coincides, for every lenient-parser
oracle, current year and candidate string, with the classifier written
from the amended claim: strict 8-digit parsing tries month-day-year,
day-month-year, year-month-day in that fixed order taking the first valid
calendar date, otherwise (for non-8-digit text) lenient parsing of the
whitespace-normalized text; a parsed date is DOB exactly when its year `y`
satisfies `1900 < y` and `y` is MORE than 2 years before the current year
(`now - y > 2`); unparseable text is never DOB. -/
theorem C3_dob_classification (lenient : List Char → Option Int)
    (now : Int) (s : List Char) :
    is_likely_dob lenient now s = dobSpec lenient now s := by
  have hstrict : strict8Year s
      = [parseMDY s, parseDMY s, parseYMD s].findSome? id := by
    unfold strict8Year
    cases hm : parseMDY s with
    | some y => simp [List.findSome?_cons]
    | none =>
      cases hd : parseDMY s with
      | some y => simp [List.findSome?_cons]
      | none =>
        cases hy : parseYMD s with
        | some y => simp [List.findSome?_cons, hy]
        | none => simp [List.findSome?_cons, hy]
  unfold is_likely_dob dobSpec parsedYear
  rw [hstrict]
  cases hcase : (if s.length = 8 && s.all isDigitA then
      ([parseMDY s, parseDMY s, parseYMD s].findSome? id).map Int.ofNat
    else lenient (pyStrip (collapseGo false s))) with
  | none => rfl
  | some y => exact dobClassifyEq now y

/-- C5 counterexample: a single-token `PERSON` candidate over `"May"` with
confidence exactly 0.6 is NOT suppressed -- it passes through the filter --
although its score does not exceed 0.6: the suppression condition of the
code is `score < 0.6`, not `score <= 0.6`. -/
theorem C5_counterexample :
    filterCandidates lenientNone 2026 "May".toList
        [⟨"PERSON", 0, 3, 60⟩] = [⟨"PERSON", 0, 3, 60⟩] ∧
    ¬ (60 > 60) :=
  ⟨by decide, by omega⟩

/-- C5 (amended): a single-token Person candidate whose lowercase form is
in the fixed common-word list is kept by the filtering step iff its
confidence score is AT LEAST 0.6 (it is suppressed exactly when the score
is strictly below 0.6); in particular candidates with score strictly above
0.6 pass through. -/
theorem C5_person_suppression (lenient : List Char → Option Int) (now : Int)
    (text : List Char) (rs : List RecognizerResult) (res : RecognizerResult)
    (hP : res.entity_type = "PERSON")
    (h1 : (pySplit (pyStrip (pySlice text res.start res.stop))).length = 1)
    (h2 : memS person_common_words
        (pyLower (pyStrip (pySlice text res.start res.stop))) = true) :
    res ∈ filterCandidates lenient now text rs ↔ res ∈ rs ∧ 60 ≤ res.score := by
  unfold filterCandidates
  rw [List.mem_filter]
  refine and_congr_right (fun _ => ?_)
  unfold keepCandidate
  rw [hP]
  simp [h1, h2]

/-- C5 witness: a listed single-token Person candidate with score 0.85
passes through the filter. -/
theorem C5_witness :
    (⟨"PERSON", 0, 3, 85⟩ : RecognizerResult) ∈
      filterCandidates lenientNone 2026 "May".toList [⟨"PERSON", 0, 3, 85⟩] :=
  (C5_person_suppression lenientNone 2026 "May".toList
      [⟨"PERSON", 0, 3, 85⟩] ⟨"PERSON", 0, 3, 85⟩ rfl (by decide)
      (by decide)).mpr ⟨by simp, by decide⟩

/-- The context branch of `is_valid_pnr`: an all-uppercase alphabetic
literal that is not blacklisted is accepted iff some context keyword
occurs in the +-30-character window. -/
theorem is_valid_pnr_context (text entity_text : List Char)
    (start stop : Nat)
    (hbl : memS pnr_blacklist (pyUpper entity_text) = false)
    (halpha : pyIsAlphaStr entity_text = true)
    (hupper : pyIsUpperStr entity_text = true) :
    is_valid_pnr text entity_text start stop = true ↔
      ∃ k ∈ pnr_context_keywords,
        containsSub
          (pyLower (pySlice text (start - 30) (min text.length (stop + 30))))
          k.toList = true := by
  unfold is_valid_pnr
  rw [hbl, halpha, hupper]
  have hdig : entity_text.any isDigitA = false := by
    apply all_alpha_no_digit
    unfold pyIsAlphaStr at halpha
    exact Bool.and_elim_right halpha
  rw [hdig]
  simp [List.any_eq_true]

/-- C4: `is_valid_pnr` rejects blacklisted literals; rejects alphabetic
literals that are not fully uppercase; accepts any literal containing a
digit (when not rejected before); and otherwise decides by whether a
context keyword of the booking/reservation/PNR/locator/reference/
confirmation vocabulary occurs in the +-30-character window around the
candidate. -/
theorem C4_pnr_validator (text entity_text : List Char) (start stop : Nat) :
    (memS pnr_blacklist (pyUpper entity_text) = true →
      is_valid_pnr text entity_text start stop = false) ∧
    (memS pnr_blacklist (pyUpper entity_text) = false →
      pyIsAlphaStr entity_text = true → pyIsUpperStr entity_text = false →
      is_valid_pnr text entity_text start stop = false) ∧
    (memS pnr_blacklist (pyUpper entity_text) = false →
      ¬(pyIsAlphaStr entity_text = true ∧ pyIsUpperStr entity_text = false) →
      entity_text.any isDigitA = true →
      is_valid_pnr text entity_text start stop = true) ∧
    (memS pnr_blacklist (pyUpper entity_text) = false →
      pyIsAlphaStr entity_text = true → pyIsUpperStr entity_text = true →
      (is_valid_pnr text entity_text start stop = true ↔
        ∃ k ∈ pnr_context_keywords,
          containsSub
            (pyLower (pySlice text (start - 30) (min text.length (stop + 30))))
            k.toList = true)) := by
  refine ⟨?_, ?_, ?_, ?_⟩
  · intro hbl
    unfold is_valid_pnr
    rw [hbl]
    rfl
  · intro hbl halpha hupper
    unfold is_valid_pnr
    rw [hbl, halpha, hupper]
    rfl
  · intro hbl hshape hdig
    unfold is_valid_pnr
    rw [hbl, hdig]
    have hcond : (pyIsAlphaStr entity_text && !pyIsUpperStr entity_text) = false := by
      cases ha : pyIsAlphaStr entity_text with
      | false => rfl
      | true =>
        cases hu : pyIsUpperStr entity_text with
        | false => exact absurd ⟨ha, hu⟩ hshape
        | true => rfl
    rw [hcond]
    rfl
  · intro hbl halpha hupper
    exact is_valid_pnr_context text entity_text start stop hbl halpha hupper

/-- C4 witness: the blacklisted literal `"FLIGHT"` is rejected. -/
theorem C4_witness :
    is_valid_pnr "PNR FLIGHT now".toList "FLIGHT".toList 4 10 = false :=
  (C4_pnr_validator "PNR FLIGHT now".toList "FLIGHT".toList 4 10).1 (by decide)

/-- C7: every candidate emitted by the phone recognizer, for any behaviour
of the regex engine, corresponds to a row of the region table; after
stripping the separator characters (whitespace, hyphens, plus signs,
parentheses) its length lies within the region's accepted range, the
region's prefix validator (when defined) accepts the stripped string, and
the candidate carries the region's fixed confidence score. -/
theorem C7_phone_filtering (finditer : String → List Char → List (Nat × Nat))
    (text : List Char) (h : PhoneHit)
    (hmem : h ∈ phoneAnalyze finditer text) :
    ∃ cfg : PhoneConfig, (h.region, cfg) ∈ PHONE_PATTERNS ∧
      cfg.min_length ≤
        ((pySlice text h.start h.stop).filter (fun c => !isSepChar c)).length ∧
      ((pySlice text h.start h.stop).filter (fun c => !isSepChar c)).length ≤
        cfg.max_length ∧
      (∀ f, cfg.prefix_validator = some f →
        f ((pySlice text h.start h.stop).filter (fun c => !isSepChar c)) = true) ∧
      h.score = cfg.confidence := by
  unfold phoneAnalyze at hmem
  rw [List.mem_flatMap] at hmem
  obtain ⟨rc, hrc, hmem2⟩ := hmem
  rw [List.mem_filterMap] at hmem2
  obtain ⟨se, _, heq⟩ := hmem2
  dsimp only at heq
  split at heq
  · split at heq
    · rename_i hlen hpre
      simp only [Option.some.injEq] at heq
      subst heq
      refine ⟨rc.2, ?_, ?_, ?_, ?_, rfl⟩
      · simpa using hrc
      · have hx := Bool.and_elim_left hlen
        simpa using hx
      · have hx := Bool.and_elim_right hlen
        simpa using hx
      · intro f hf
        rw [hf] at hpre
        simpa using hpre
    · exact absurd heq (by simp)
  · exact absurd heq (by simp)

/-- C7 witness: a mainland-China match at the right length and prefix is
emitted with the region's confidence. -/
theorem C7_witness :
    ∃ cfg : PhoneConfig, (("CN") , cfg) ∈ PHONE_PATTERNS ∧
      cfg.min_length ≤
        ((pySlice "13800138000".toList 0 11).filter (fun c => !isSepChar c)).length ∧
      ((pySlice "13800138000".toList 0 11).filter (fun c => !isSepChar c)).length ≤
        cfg.max_length ∧
      (∀ f, cfg.prefix_validator = some f →
        f ((pySlice "13800138000".toList 0 11).filter (fun c => !isSepChar c)) = true) ∧
      (95 : Nat) = cfg.confidence :=
  C7_phone_filtering cnFinditer "13800138000".toList
    ⟨"13800138000".toList, 0, 11, "PHONE_NUMBER", 95, "CN"⟩ (by decide)

/-- C9: the +-30-character context window of `is_valid_pnr` includes the
candidate literal itself, so every all-alphabetic all-uppercase candidate
that is not blacklisted and whose lowercase form contains a context
keyword as a substring (e.g. `"PREFER"` contains `"ref"`) is accepted as a
valid PNR regardless of the surrounding text. -/
theorem C9_window_includes_candidate (text : List Char) (start stop : Nat)
    (entity_text : List Char)
    (hslice : pySlice text start stop = entity_text)
    (halpha : pyIsAlphaStr entity_text = true)
    (hupper : pyIsUpperStr entity_text = true)
    (hbl : memS pnr_blacklist (pyUpper entity_text) = false)
    (k : String) (hk : k ∈ pnr_context_keywords)
    (hsub : k.toList <:+: pyLower entity_text)
    (hse : start ≤ stop) (hlen : stop ≤ text.length) :
    is_valid_pnr text entity_text start stop = true := by
  have hiff := is_valid_pnr_context text entity_text start stop
    hbl halpha hupper
  rw [hiff]
  refine ⟨k, hk, ?_⟩
  apply containsSub_of_infix
  have hwin : pySlice text start stop <:+:
      pySlice text (start - 30) (min text.length (stop + 30)) := by
    apply pySlice_infix_pySlice
    · exact Nat.sub_le start 30
    · exact hse
    · exact le_min hlen (Nat.le_add_right stop 30)
  have hmap := List.IsInfix.map Char.toLower hwin
  rw [hslice] at hmap
  exact hsub.trans hmap

/-- C9 witness: `"PREFER"` (whose lowercase form contains the keyword
`"ref"`) is accepted in a context with no booking vocabulary at all. -/
theorem C9_witness :
    is_valid_pnr "zzzz PREFER zzzz".toList "PREFER".toList 5 11 = true :=
  C9_window_includes_candidate "zzzz PREFER zzzz".toList 5 11
    "PREFER".toList (by decide) (by decide) (by decide) (by decide)
    "ref" (by decide) (by decide) (by decide) (by decide)
